import Mathlib

/-!
Verification development for the dual-protocol (HTTP + SOCKS5) proxy server.

The repository contains several iterations of the proxy. The richest one
(the dual-protocol server with the monitoring registry, bandwidth tracking
and the ticker-based broadcast worker) is embedded here: its connection
handlers `handleConnection`, `handleSocks5` and `handleHTTP`, the monitoring
structures `ConnectionInfo` / `MonitoringStats` with their JSON encoding,
`getStats`, `handleAPI`, and the broadcast worker `startBroadcastWorker`.

Modelling conventions:
* a client byte stream is a `List Nat` (each element a byte value);
  `io.ReadFull` of `n` bytes is `readN n`, which fails exactly when fewer
  than `n` bytes remain;
* the externally visible actions of a connection handler are collected in
  order into a `List PEvent` (bytes written to the client, the registry
  add/remove calls, the upstream dial attempt, entry into the relay phase);
* the outcome of `net.Dial` is an environment parameter `dialOk : Bool`;
* times are integers (nanoseconds, as in Go's `time` package).
-/

namespace Proxy

/-- The host part of a SOCKS5 destination, as parsed by `handleSocks5`:
ATYP 0x01 gives four IPv4 octets, ATYP 0x03 a length-prefixed domain
(kept as its raw bytes, Go does `string(domain)`), ATYP 0x04 sixteen
IPv6 octets. -/
inductive S5Host where
  | ipv4 (b0 b1 b2 b3 : Nat)
  | domain (bytes : List Nat)
  | ipv6 (bytes : List Nat)
deriving DecidableEq, Repr

/-- A destination address as passed to `net.Dial` / `addConnection`:
either a SOCKS5 host with its big-endian port (`net.JoinHostPort`),
or the HTTP `req.Host`-derived `host:port` string. -/
inductive DestAddr where
  | socksDest (host : S5Host) (port : Nat)
  | httpDest (hostport : String)
deriving DecidableEq, Repr

/-- Externally visible actions of a connection handler, in program order. -/
inductive PEvent where
  /-- `clientConn.Write` of raw bytes. -/
  | writeBytes (bs : List Nat)
  /-- `fmt.Fprint(clientConn, s)`. -/
  | fprint (s : String)
  /-- `resp.Write(clientConn)` of an `http.Response` with the given status,
  protocol version and body. -/
  | writeResp (status protoMajor protoMinor : Nat) (body : String)
  /-- `req.Write(serverConn)`: the parsed request is serialized to the upstream. -/
  | upstreamWriteReq
  /-- `addConnection(id, clientIP, protocol, destination)`. -/
  | addConn (protocol : String) (dest : DestAddr)
  /-- `removeConnection(id)` (run via `defer`). -/
  | release
  /-- `net.Dial("tcp", dest)`. -/
  | dialAttempt (dest : DestAddr)
  /-- The bidirectional relay phase starts. `fromBufferedReader` records
  whether the client-to-upstream copy reads from the `bufio.Reader`
  (`true`, SOCKS5 path) or from the raw `net.Conn` (`false`, HTTP path). -/
  | relay (fromBufferedReader : Bool)
deriving DecidableEq, Repr

/-- `io.ReadFull(reader, buf)` for a buffer of `n` bytes: consume exactly
`n` bytes of the stream, or fail if fewer remain. -/
def readN (n : Nat) (s : List Nat) : Option (List Nat × List Nat) :=
  if n ≤ s.length then some (s.take n, s.drop n) else none

/-- Read the SOCKS5 address field according to ATYP (`reqHeader[3]`):
0x01 reads 4 bytes, 0x03 reads a length byte then that many domain bytes,
0x04 reads 16 bytes; any other ATYP makes the handler return. Read
failures also yield `none`. -/
def readAddr : Nat → List Nat → Option (S5Host × List Nat)
  | 1, b0 :: b1 :: b2 :: b3 :: rest => some (.ipv4 b0 b1 b2 b3, rest)
  | 1, _ => none
  | 3, len :: rest =>
      match readN len rest with
      | some (d, r) => some (.domain d, r)
      | none => none
  | 3, [] => none
  | 4, rest =>
      match readN 16 rest with
      | some (bs, r) => some (.ipv6 bs, r)
      | none => none
  | _, _ => none

/-- The SOCKS5 success reply `05 00 00 01` with zeroed BND address and port. -/
def socksSuccessReply : List Nat := [5, 0, 0, 1, 0, 0, 0, 0, 0, 0]

/-- The SOCKS5 failure reply `05 04 00 01` (host unreachable) with zeroed
BND address and port. -/
def socksFailReply : List Nat := [5, 4, 0, 1, 0, 0, 0, 0, 0, 0]

/-- The SOCKS5 request phase of `handleSocks5`, after the `05 00` method
reply has been written: read the 4-byte header `VER CMD RSV ATYP`
(require VER=5, CMD=1), the address by ATYP, and the 2-byte big-endian
port; then register the connection, dial, and reply `05 00 ...` followed
by the relay on success or `05 04 ...` on failure.  `removeConnection`
is deferred, so it fires last on every path that reached `addConnection`. -/
def socks5Request : List Nat → Bool → List PEvent
  | ver :: cmd :: _rsv :: atyp :: rest, dialOk =>
      if ver = 5 ∧ cmd = 1 then
        match readAddr atyp rest with
        | some (host, rest2) =>
            match rest2 with
            | p1 :: p2 :: _ =>
                let dest := DestAddr.socksDest host (p1 * 256 + p2)
                [PEvent.addConn "SOCKS5" dest, PEvent.dialAttempt dest] ++
                  (if dialOk then
                    [PEvent.writeBytes socksSuccessReply,
                     PEvent.relay true, PEvent.release]
                  else
                    [PEvent.writeBytes socksFailReply,
                     PEvent.release])
            | _ => []
        | none => []
      else []
  | _, _ => []

/-- The full `handleSocks5`: read 2 bytes `VER NMETHODS`, require VER=5,
read NMETHODS method bytes, write the method reply `05 00` regardless of
the methods offered, then run the request phase. -/
def handleSocks5 : List Nat → Bool → List PEvent
  | version :: nMethods :: rest, dialOk =>
      if version = 5 then
        match readN nMethods rest with
        | some (_methods, rest2) =>
            PEvent.writeBytes [5, 0] :: socks5Request rest2 dialOk
        | none => []
      else []
  | _, _ => []

/-- The dispatcher `handleConnection` after admission: peek one byte
without consuming it; route to the SOCKS5 engine when it is 0x05, to the
HTTP engine otherwise; a failed peek (empty stream) closes the
connection.  The engines are parameters, exactly as the Go code passes
the same `bufio.Reader` (with the peeked byte still buffered) to
`handleSocks5` or `handleHTTP`. -/
def handleConnection (socksEngine httpEngine : List Nat → List PEvent)
    (input : List Nat) : List PEvent :=
  match input.head? with
  | none => []
  | some b => if b = 5 then socksEngine input else httpEngine input

/-- An HTTP request as produced by `http.ReadRequest`: the method and the
`req.Host` field. -/
structure HttpReq where
  method : String
  host : String
deriving DecidableEq, Repr

/-- The `handleHTTP` handler after `http.ReadRequest` succeeded.
`hostHasPort` is the outcome of `net.SplitHostPort(req.Host)` (when it
fails, `":80"` is appended); `dialOk` the outcome of `net.Dial`;
`reqWriteOk` the outcome of `req.Write(serverConn)` on the non-CONNECT
path.  Mirrors the Go control flow: register, dial, on failure write a
502 response and return; on success reply `200 Connection established`
for CONNECT or forward the request for other methods, then relay
(reading the client side from the raw `net.Conn`). -/
def handleHTTP (req : HttpReq) (hostHasPort dialOk reqWriteOk : Bool) : List PEvent :=
  let address := if hostHasPort then req.host else req.host ++ ":80"
  let dest := DestAddr.httpDest address
  [PEvent.addConn "HTTP" dest, PEvent.dialAttempt dest] ++
    (if dialOk then
      (if req.method = "CONNECT" then
        [PEvent.fprint "HTTP/1.1 200 Connection established\r\n\r\n",
         PEvent.relay false, PEvent.release]
      else
        if reqWriteOk then
          [PEvent.upstreamWriteReq, PEvent.relay false, PEvent.release]
        else
          [PEvent.upstreamWriteReq, PEvent.release])
    else
      [PEvent.writeResp 502 1 1 "Bad Gateway", PEvent.release])

/-- State of the client-side `bufio.Reader` when the relay phase starts:
`buffered` are the bytes the reader has already pulled from the socket
past what the protocol parser consumed; `raw` are the bytes still
unread in the socket. -/
structure BufferedReader where
  buffered : List Nat
  raw : List Nat
deriving DecidableEq, Repr

/-- Client-to-upstream bytes delivered by `handleHTTP`'s relay:
`copyWithTracking(serverConn, clientConn, ...)` reads from the raw
`net.Conn`, bypassing the `bufio.Reader`. -/
def httpClientToUpstream (r : BufferedReader) : List Nat := r.raw

/-- Client-to-upstream bytes delivered by `handleSocks5`'s relay:
`copyWithTracking(destConn, reader, ...)` reads from the `bufio.Reader`,
so buffered bytes come first. -/
def socksClientToUpstream (r : BufferedReader) : List Nat := r.buffered ++ r.raw

/-! ## Monitoring registry and its JSON encoding -/

/-- Go's `time.Second` in nanoseconds. -/
def second : Int := 1000000000

/-- `ConnectionInfo` from the monitoring system.  Field order matches the
Go struct declaration; times are nanosecond instants with `0` standing
for the zero `time.Time`; the `float64` bandwidth fields are modelled as
rationals.  `duration` is filled in by `getStats`. -/
structure ConnectionInfo where
  id : String
  clientIP : String
  protocol : String
  destination : String
  domainName : String
  startTime : Int
  duration : String
  bytesReceived : Int
  bytesSent : Int
  bandwidthIn : ℚ
  bandwidthOut : ℚ
  lastUpdateTime : Int
  windowBytesIn : Int
  windowBytesOut : Int
  windowStartTime : Int
deriving Repr

/-- `MonitoringStats`.  The Go `map[string]*ConnectionInfo` is modelled as
an association list keyed by connection id; the mutex has no
counterpart in the functional model. -/
structure MonitoringStats where
  totalConnections : Int
  activeConnections : List (String × ConnectionInfo)
  totalBytesReceived : Int
  totalBytesSent : Int
  currentBandwidthIn : ℚ
  currentBandwidthOut : ℚ
deriving Repr

/-- Abbreviation of Go's `time.Duration.String` after
`Round(time.Second)`: the whole number of seconds with an `s` suffix
(sub-minute durations; the exact formatting is irrelevant to the claims). -/
def durationString (d : Int) : String := toString (d / second) ++ "s"

/-- The per-record work of `getStats`: compute `Duration` from
`StartTime`, and zero the bandwidth fields of a record that has been
idle for more than 2 seconds (`LastUpdateTime` set and older than 2s). -/
def withDerived (now : Int) (c : ConnectionInfo) : ConnectionInfo :=
  let c1 := { c with duration := durationString (now - c.startTime) }
  if c.lastUpdateTime ≠ 0 ∧ now - c.lastUpdateTime > 2 * second then
    { c1 with bandwidthIn := 0, bandwidthOut := 0 }
  else c1

/-- `getStats()`: a consistent snapshot with derived durations,
idle-zeroed rates, and the aggregate current bandwidth summed over the
(idle-adjusted) active records. -/
def getStats (s : MonitoringStats) (now : Int) : MonitoringStats :=
  let act := s.activeConnections.map (fun p => (p.1, withDerived now p.2))
  { totalConnections := s.totalConnections
    activeConnections := act
    totalBytesReceived := s.totalBytesReceived
    totalBytesSent := s.totalBytesSent
    currentBandwidthIn := (act.map (fun p => p.2.bandwidthIn)).sum
    currentBandwidthOut := (act.map (fun p => p.2.bandwidthOut)).sum }

/-- JSON values, as far as the monitoring encoder needs them. -/
inductive Json where
  | str (s : String)
  | int (n : Int)
  | num (q : ℚ)
  | obj (fields : List (String × Json))
deriving Repr

/-- `encoding/json` on `ConnectionInfo`: fields in declaration order under
their struct tags; the four fields tagged `json:"-"` are omitted.
`time.Time` marshals to its RFC 3339 string (rendering abstracted). -/
def encodeConnectionInfo (c : ConnectionInfo) : Json :=
  Json.obj
    [("id", Json.str c.id),
     ("client_ip", Json.str c.clientIP),
     ("protocol", Json.str c.protocol),
     ("destination", Json.str c.destination),
     ("domain_name", Json.str c.domainName),
     ("start_time", Json.str (toString c.startTime)),
     ("duration", Json.str c.duration),
     ("bytes_received", Json.int c.bytesReceived),
     ("bytes_sent", Json.int c.bytesSent),
     ("bandwidth_in", Json.num c.bandwidthIn),
     ("bandwidth_out", Json.num c.bandwidthOut)]

/-- `encoding/json` on `MonitoringStats` (the unexported mutex is skipped). -/
def encodeStats (s : MonitoringStats) : Json :=
  Json.obj
    [("total_connections", Json.int s.totalConnections),
     ("active_connections",
       Json.obj (s.activeConnections.map (fun p => (p.1, encodeConnectionInfo p.2)))),
     ("total_bytes_received", Json.int s.totalBytesReceived),
     ("total_bytes_sent", Json.int s.totalBytesSent),
     ("current_bandwidth_in", Json.num s.currentBandwidthIn),
     ("current_bandwidth_out", Json.num s.currentBandwidthOut)]

/-- `handleAPI`: serve `json.NewEncoder(w).Encode(getStats())`. -/
def handleAPI (s : MonitoringStats) (now : Int) : Json :=
  encodeStats (getStats s now)

/-- The keys of a JSON object, in order. -/
def jsonKeys : Json → List String
  | .obj fields => fields.map Prod.fst
  | _ => []

/-! ## The broadcast worker -/

/-- State of `startBroadcastWorker`'s loop: `lastBroadcast` is `none` for
the zero `time.Time` initial value (for which `time.Since` is always
at least a second), `pending` is `pendingUpdate`. -/
structure BCState where
  lastBroadcast : Option Int
  pending : Bool
deriving DecidableEq, Repr

/-- `time.Since(lastBroadcast) >= 1*time.Second` at instant `t`. -/
def sinceOneSecond : Option Int → Int → Bool
  | none, _ => true
  | some b, t => decide (second ≤ t - b)

/-- Events seen by the worker's `select`: a wake-channel signal or a
ticker tick, at nanosecond instant `t`. -/
inductive BEvent where
  | signal (t : Int)
  | tick (t : Int)
deriving DecidableEq, Repr

/-- The time of an event. -/
def BEvent.time : BEvent → Int
  | .signal t => t
  | .tick t => t

/-- One iteration of the worker loop.  On a signal: set `pendingUpdate`,
and if at least a second has passed since `lastBroadcast`, call
`broadcastUpdate`, record the time and clear `pendingUpdate`.  On a
tick: broadcast exactly when `pendingUpdate` is set.  The returned
`Bool` records whether `broadcastUpdate` ran. -/
def bstep (s : BCState) : BEvent → BCState × Bool
  | .signal t =>
      if sinceOneSecond s.lastBroadcast t then (⟨some t, false⟩, true)
      else (⟨s.lastBroadcast, true⟩, false)
  | .tick t =>
      if s.pending then (⟨some t, false⟩, true) else (s, false)

/-- Run the worker over a list of events, counting broadcasts. -/
def runBroadcaster : BCState → List BEvent → BCState × Nat
  | s, [] => (s, 0)
  | s, e :: rest =>
      let r := bstep s e
      let f := runBroadcaster r.1 rest
      (f.1, (if r.2 then 1 else 0) + f.2)

/-- The worker's initial state: zero `time.Time`, no pending update. -/
def initialBC : BCState := ⟨none, false⟩

/-- Number of tick events in a trace. -/
def countTicks : List BEvent → Nat
  | [] => 0
  | BEvent.tick _ :: rest => countTicks rest + 1
  | BEvent.signal _ :: rest => countTicks rest

/-- Well-formed event traces, `k` ticks already consumed: the ticker
fires exactly at `second * (k+1)`, and signals carry instants strictly
between the surrounding ticks (the 1-second ticker runs for the whole
trace, and a signal never lands on the exact nanosecond of a tick). -/
def validTrace : Nat → List BEvent → Prop
  | _, [] => True
  | k, BEvent.signal t :: rest =>
      second * k < t ∧ t < second * (k + 1) ∧ validTrace k rest
  | k, BEvent.tick t :: rest =>
      t = second * (k + 1) ∧ validTrace (k + 1) rest

instance validTraceDec : ∀ k evs, Decidable (validTrace k evs)
  | _, [] => isTrue trivial
  | k, BEvent.signal t :: rest =>
      letI := validTraceDec k rest
      inferInstanceAs (Decidable (second * k < t ∧ t < second * (k + 1) ∧ validTrace k rest))
  | k, BEvent.tick t :: rest =>
      letI := validTraceDec (k + 1) rest
      inferInstanceAs (Decidable (t = second * (k + 1) ∧ validTrace (k + 1) rest))

/-! ## Helper lemmas -/

theorem readN_zero (s : List Nat) : readN 0 s = some ([], s) := by
  simp [readN]

theorem readN_length_append (l r : List Nat) : readN l.length (l ++ r) = some (l, r) := by
  simp [readN]

/-- `socks5Request` either makes no registry call at all (a framing failure
before the request is complete), or registers the parsed destination,
dials it, and finishes with the success or failure tail. -/
theorem socks5Request_shape (r : List Nat) (dialOk : Bool) :
    socks5Request r dialOk = [] ∨
    ∃ d, socks5Request r dialOk =
      [PEvent.addConn "SOCKS5" d, PEvent.dialAttempt d] ++
        (if dialOk then
          [PEvent.writeBytes socksSuccessReply, PEvent.relay true, PEvent.release]
        else
          [PEvent.writeBytes socksFailReply, PEvent.release]) := by
  match r with
  | [] => exact Or.inl rfl
  | [_] => exact Or.inl rfl
  | [_, _] => exact Or.inl rfl
  | [_, _, _] => exact Or.inl rfl
  | ver :: cmd :: rsv :: atyp :: rest =>
    by_cases hvc : ver = 5 ∧ cmd = 1
    · rcases h : readAddr atyp rest with _ | ⟨host, rest2⟩
      · exact Or.inl (by simp [socks5Request, hvc, h])
      · match rest2, h with
        | [], h => exact Or.inl (by simp [socks5Request, hvc, h])
        | [_], h => exact Or.inl (by simp [socks5Request, hvc, h])
        | p1 :: p2 :: t2, h =>
          exact Or.inr ⟨DestAddr.socksDest host (p1 * 256 + p2),
            by simp [socks5Request, hvc, h]⟩
    · exact Or.inl (by simp [socks5Request, hvc])

/-- `handleSocks5` either terminates during the handshake without any
visible action, or writes the method reply and continues with the
request phase on the remaining bytes. -/
theorem handleSocks5_shape (input : List Nat) (dialOk : Bool) :
    handleSocks5 input dialOk = [] ∨
    ∃ rest2, handleSocks5 input dialOk =
      PEvent.writeBytes [5, 0] :: socks5Request rest2 dialOk := by
  match input with
  | [] => exact Or.inl rfl
  | [_] => exact Or.inl rfl
  | version :: nMethods :: rest =>
    by_cases hv : version = 5
    · rcases h : readN nMethods rest with _ | ⟨methods, rest2⟩
      · exact Or.inl (by simp [handleSocks5, hv, h])
      · exact Or.inr ⟨rest2, by simp [handleSocks5, hv, h]⟩
    · exact Or.inl (by simp [handleSocks5, hv])

/-! ## Claim theorems -/

/-- C2: the dispatcher performs a non-consuming one-byte lookahead: a
first byte of 0x05 routes the connection to the SOCKS5 engine, any other
first byte to the HTTP engine, and in both cases the chosen engine
receives the stream with the peeked byte still unconsumed; an empty
stream (failed peek) is closed without routing. -/
theorem dispatch_peek_routes (se he : List Nat → List PEvent) (b : Nat) (rest : List Nat) :
    handleConnection se he (b :: rest) =
      (if b = 5 then se (b :: rest) else he (b :: rest)) ∧
    handleConnection se he [] = [] :=
  ⟨rfl, rfl⟩

/-- C8: after reading `VER NMETHODS` and exactly NMETHODS method bytes, the
SOCKS5 engine replies `05 00` whatever the offered method values are;
when the first byte is not 0x05 (or the greeting is shorter than two
bytes) it terminates without writing anything. -/
theorem socks5_negotiation_reply :
    (∀ (v n : Nat) (rest : List Nat) (dialOk : Bool), v ≠ 5 →
      handleSocks5 (v :: n :: rest) dialOk = []) ∧
    (∀ (methods rest : List Nat) (dialOk : Bool),
      handleSocks5 (5 :: methods.length :: (methods ++ rest)) dialOk =
        PEvent.writeBytes [5, 0] :: socks5Request rest dialOk) ∧
    (∀ (v : Nat) (dialOk : Bool), handleSocks5 [v] dialOk = []) := by
  refine ⟨fun v n rest dialOk hv => ?_, fun methods rest dialOk => ?_, fun v dialOk => rfl⟩
  · simp [handleSocks5, hv]
  · simp [handleSocks5, readN_length_append]

/-- Witness for C8: a greeting with wrong version byte 0x04 produces no
reply; a well-formed greeting offering the two methods 0x00 and 0x01 is
answered with exactly `05 00`. -/
theorem socks5_negotiation_reply_witness :
    handleSocks5 [4, 1, 0] true = [] ∧
    handleSocks5 [5, 2, 0, 1] true = [PEvent.writeBytes [5, 0]] := by
  refine ⟨socks5_negotiation_reply.1 4 1 [0] true (by decide), ?_⟩
  have h := socks5_negotiation_reply.2.1 [0, 1] [] true
  simpa using h

/-- C10: a greeting `05 00` with NMETHODS = 0 is accepted: zero method
bytes are read, the reply `05 00` is written, and the engine proceeds to
the request phase on the remaining bytes. -/
theorem socks5_zero_methods_accepted (rest : List Nat) (dialOk : Bool) :
    handleSocks5 (5 :: 0 :: rest) dialOk =
      PEvent.writeBytes [5, 0] :: socks5Request rest dialOk := by
  simp [handleSocks5, readN_zero]

/-- C6 counterexample: a request with ATYP=0x03 and domain length byte 0
is not rejected: the engine registers the empty-host destination and
attempts the upstream dial. -/
theorem socks5_domain_len_zero_dials :
    PEvent.dialAttempt (DestAddr.socksDest (S5Host.domain []) 80) ∈
      handleSocks5 [5, 1, 0, 5, 1, 0, 3, 0, 0, 80] true ∧
    handleSocks5 [5, 1, 0, 5, 1, 0, 3, 0, 0, 80] true ≠ [] := by
  decide

/-- C6 as amended: a SOCKS5 request with ATYP=0x03 and length byte 0 is
accepted, not rejected: the engine reads an empty domain, reads the
port, registers the connection and attempts the dial to the empty host
(Go address `":port"`), then replies according to the dial outcome. -/
theorem socks5_domain_len_zero_accepted (p1 p2 : Nat) (rest : List Nat) (dialOk : Bool) :
    handleSocks5 ([5, 1, 0, 5, 1, 0, 3, 0] ++ p1 :: p2 :: rest) dialOk =
      [PEvent.writeBytes [5, 0],
       PEvent.addConn "SOCKS5" (DestAddr.socksDest (S5Host.domain []) (p1 * 256 + p2)),
       PEvent.dialAttempt (DestAddr.socksDest (S5Host.domain []) (p1 * 256 + p2))] ++
        (if dialOk then
          [PEvent.writeBytes socksSuccessReply, PEvent.relay true, PEvent.release]
        else
          [PEvent.writeBytes socksFailReply, PEvent.release]) := rfl

/-- C7: a CONNECT request whose dial succeeds is answered with exactly
`HTTP/1.1 200 Connection established\r\n\r\n` before the relay starts;
any request whose dial fails is answered with an HTTP/1.1 502 response
with body `Bad Gateway` and the handler terminates (release) without
relaying. -/
theorem http_connect_replies (host mtd : String) (hhp rwOk : Bool) :
    (handleHTTP ⟨"CONNECT", host⟩ hhp true rwOk =
      [PEvent.addConn "HTTP" (DestAddr.httpDest (if hhp then host else host ++ ":80")),
       PEvent.dialAttempt (DestAddr.httpDest (if hhp then host else host ++ ":80")),
       PEvent.fprint "HTTP/1.1 200 Connection established\r\n\r\n",
       PEvent.relay false, PEvent.release]) ∧
    (handleHTTP ⟨mtd, host⟩ hhp false rwOk =
      [PEvent.addConn "HTTP" (DestAddr.httpDest (if hhp then host else host ++ ":80")),
       PEvent.dialAttempt (DestAddr.httpDest (if hhp then host else host ++ ":80")),
       PEvent.writeResp 502 1 1 "Bad Gateway", PEvent.release]) := by
  constructor
  · simp [handleHTTP]
  · simp [handleHTTP]

/-- C3 at the failing input: when the HTTP parser has buffered bytes past
the header (here the start of a TLS record, 0x16 0x03 0x01), the HTTP
relay delivers only the bytes still in the raw socket and drops the
buffered ones, while the SOCKS5 relay (reading from the buffered
reader) delivers everything. -/
theorem http_relay_drops_buffered :
    httpClientToUpstream ⟨[22, 3, 1], [160, 134]⟩ = [160, 134] ∧
    socksClientToUpstream ⟨[22, 3, 1], [160, 134]⟩ = [22, 3, 1, 160, 134] ∧
    httpClientToUpstream ⟨[22, 3, 1], [160, 134]⟩ ≠
      socksClientToUpstream ⟨[22, 3, 1], [160, 134]⟩ := by
  decide

/-- C1: whenever a SOCKS5 CONNECT request reaches the dial step, the whole
visible behaviour is determined: the method reply, the registration and
the dial come first, then on dial success exactly the ten bytes
`05 00 00 01 00 00 00 00 00 00` are written before the relay starts, and
on dial failure exactly the ten bytes `05 04 00 01 00 00 00 00 00 00`
are written and the handler terminates without relaying. -/
theorem socks5_dial_replies (input : List Nat) (dialOk : Bool) (d : DestAddr)
    (hdial : PEvent.dialAttempt d ∈ handleSocks5 input dialOk) :
    handleSocks5 input dialOk =
      [PEvent.writeBytes [5, 0], PEvent.addConn "SOCKS5" d, PEvent.dialAttempt d] ++
        (if dialOk then
          [PEvent.writeBytes socksSuccessReply, PEvent.relay true, PEvent.release]
        else
          [PEvent.writeBytes socksFailReply, PEvent.release]) := by
  rcases handleSocks5_shape input dialOk with h0 | ⟨rest2, h⟩
  · rw [h0] at hdial
    exact absurd hdial (List.not_mem_nil _)
  · rw [h] at hdial ⊢
    rcases socks5Request_shape rest2 dialOk with h1 | ⟨d0, h1⟩
    · rw [h1] at hdial
      simp at hdial
    · rw [h1] at hdial ⊢
      have hd : d = d0 := by
        cases dialOk <;> simpa using hdial
      rw [hd]
      rfl

/-- Witness for C1: a CONNECT to 8.8.8.8:80 whose dial fails gets exactly
the host-unreachable reply and no relay. -/
theorem socks5_dial_replies_witness :
    handleSocks5 [5, 1, 0, 5, 1, 0, 1, 8, 8, 8, 8, 0, 80] false =
      [PEvent.writeBytes [5, 0],
       PEvent.addConn "SOCKS5" (DestAddr.socksDest (S5Host.ipv4 8 8 8 8) 80),
       PEvent.dialAttempt (DestAddr.socksDest (S5Host.ipv4 8 8 8 8) 80),
       PEvent.writeBytes socksFailReply, PEvent.release] := by
  have h := socks5_dial_replies [5, 1, 0, 5, 1, 0, 1, 8, 8, 8, 8, 0, 80] false
    (DestAddr.socksDest (S5Host.ipv4 8 8 8 8) 80) (by decide)
  simpa using h

/-- C9 counterexample: a SOCKS5 CONNECT whose upstream dial fails still
creates a registry record (the `admit` call happens before the dial),
even though the connection never relays. -/
theorem record_exists_on_failed_dial :
    PEvent.addConn "SOCKS5" (DestAddr.socksDest (S5Host.ipv4 10 0 0 1) 80) ∈
      handleSocks5 [5, 1, 0, 5, 1, 0, 1, 10, 0, 0, 1, 0, 80] false ∧
    PEvent.relay true ∉ handleSocks5 [5, 1, 0, 5, 1, 0, 1, 10, 0, 0, 1, 0, 80] false ∧
    PEvent.relay false ∉ handleSocks5 [5, 1, 0, 5, 1, 0, 1, 10, 0, 0, 1, 0, 80] false := by
  decide

/-- C9 as amended: the registry record is created after the protocol
engine yields a destination and before the upstream dial, and removed
when the handler returns: every SOCKS5 trace is either a silent framing
failure, the lone method reply, or registration followed by the dial and
a release-terminated tail whose relay happens only on dial success;
every HTTP trace registers, dials, and ends with the release, with the
relay only on the success paths.  In particular a connection whose dial
fails does have a record during the failed attempt and never relays. -/
theorem record_lifecycle_shape (input : List Nat) (dialOk : Bool)
    (req : HttpReq) (hhp dOk rwOk : Bool) :
    (handleSocks5 input dialOk = [] ∨
     handleSocks5 input dialOk = [PEvent.writeBytes [5, 0]] ∨
     ∃ d, handleSocks5 input dialOk =
       [PEvent.writeBytes [5, 0], PEvent.addConn "SOCKS5" d, PEvent.dialAttempt d] ++
         (if dialOk then
           [PEvent.writeBytes socksSuccessReply, PEvent.relay true, PEvent.release]
         else
           [PEvent.writeBytes socksFailReply, PEvent.release])) ∧
    (∃ d, handleHTTP req hhp dOk rwOk =
       [PEvent.addConn "HTTP" d, PEvent.dialAttempt d] ++
         (if dOk then
           (if req.method = "CONNECT" then
             [PEvent.fprint "HTTP/1.1 200 Connection established\r\n\r\n",
              PEvent.relay false, PEvent.release]
           else if rwOk then
             [PEvent.upstreamWriteReq, PEvent.relay false, PEvent.release]
           else
             [PEvent.upstreamWriteReq, PEvent.release])
         else
           [PEvent.writeResp 502 1 1 "Bad Gateway", PEvent.release])) := by
  constructor
  · rcases handleSocks5_shape input dialOk with h0 | ⟨rest2, h⟩
    · exact Or.inl h0
    · rcases socks5Request_shape rest2 dialOk with h1 | ⟨d0, h1⟩
      · exact Or.inr (Or.inl (by rw [h, h1]))
      · exact Or.inr (Or.inr ⟨d0, by rw [h, h1]; rfl⟩)
  · exact ⟨DestAddr.httpDest (if hhp then req.host else req.host ++ ":80"), rfl⟩

/-- C4: for every registry state, the JSON document served by
`GET /api/stats` has exactly the top-level fields `total_connections`,
`active_connections` (keyed by id, each value encoded from the record),
`total_bytes_received`, `total_bytes_sent`, `current_bandwidth_in` and
`current_bandwidth_out`, and every encoded record has exactly the fields
`id`, `client_ip`, `protocol`, `destination`, `domain_name`,
`start_time`, `duration`, `bytes_received`, `bytes_sent`,
`bandwidth_in` and `bandwidth_out`. -/
theorem api_stats_fields (s : MonitoringStats) (now : Int) :
    jsonKeys (handleAPI s now) =
      ["total_connections", "active_connections", "total_bytes_received",
       "total_bytes_sent", "current_bandwidth_in", "current_bandwidth_out"] ∧
    handleAPI s now =
      Json.obj
        [("total_connections", Json.int (getStats s now).totalConnections),
         ("active_connections",
           Json.obj ((getStats s now).activeConnections.map
             (fun p => (p.1, encodeConnectionInfo p.2)))),
         ("total_bytes_received", Json.int (getStats s now).totalBytesReceived),
         ("total_bytes_sent", Json.int (getStats s now).totalBytesSent),
         ("current_bandwidth_in", Json.num (getStats s now).currentBandwidthIn),
         ("current_bandwidth_out", Json.num (getStats s now).currentBandwidthOut)] ∧
    ∀ c : ConnectionInfo, jsonKeys (encodeConnectionInfo c) =
      ["id", "client_ip", "protocol", "destination", "domain_name", "start_time",
       "duration", "bytes_received", "bytes_sent", "bandwidth_in", "bandwidth_out"] :=
  ⟨rfl, rfl, fun _ => rfl⟩

/-! ## Broadcaster rate limiting -/

/-- Invariant of the broadcast loop, with `k` ticks consumed and `c`
broadcasts published so far: before the first broadcast the count is
zero; afterwards the count is bounded both through the instant of the
last broadcast and by the number of ticks seen. -/
def BCInv (k c : Nat) (s : BCState) : Prop :=
  (s.lastBroadcast = none → c = 0) ∧
  (∀ b : Int, s.lastBroadcast = some b →
    second * (c : Int) ≤ b + 2 * second ∧ c ≤ k + 2)

theorem runBroadcaster_cons (s : BCState) (e : BEvent) (rest : List BEvent) :
    runBroadcaster s (e :: rest) =
      ((runBroadcaster (bstep s e).1 rest).1,
       (if (bstep s e).2 then 1 else 0) + (runBroadcaster (bstep s e).1 rest).2) := rfl

theorem bcinv_none (k : Nat) : BCInv k 0 ⟨none, false⟩ := by
  constructor
  · intro _
    rfl
  · intro b hb
    cases hb

theorem runBroadcaster_inv (evs : List BEvent) :
    ∀ (k c : Nat) (s : BCState), validTrace k evs → BCInv k c s →
      BCInv (k + countTicks evs) (c + (runBroadcaster s evs).2) (runBroadcaster s evs).1 := by
  induction evs with
  | nil =>
    intro k c s _ hinv
    simpa [runBroadcaster, countTicks] using hinv
  | cons e rest ih =>
    intro k c s hval hinv
    cases e with
    | signal t =>
      obtain ⟨ht1, ht2, hrest⟩ := hval
      by_cases hs : sinceOneSecond s.lastBroadcast t = true
      · have hb : bstep s (BEvent.signal t) = (⟨some t, false⟩, true) := by
          simp [bstep, hs]
        rw [runBroadcaster_cons, hb]
        have hinv2 : BCInv k (c + 1) ⟨some t, false⟩ := by
          constructor
          · intro h
            cases h
          · intro b hb2
            have hbt : t = b := by
              simpa using hb2
            subst hbt
            rcases hsl : s.lastBroadcast with _ | b0
            · have hc0 : c = 0 := hinv.1 hsl
              subst hc0
              simp only [second] at ht1 ht2 ⊢
              refine ⟨by push_cast; omega, by omega⟩
            · have hss : second ≤ t - b0 := by
                rw [hsl] at hs
                simpa [sinceOneSecond] using hs
              obtain ⟨hc1, hc2⟩ := hinv.2 b0 hsl
              simp only [second] at ht1 ht2 hc1 hss ⊢
              refine ⟨by push_cast at hc1 ⊢; omega, ?_⟩
              have hck1 : (1000000000 : Int) * c ≤ 1000000000 * k + 1999999999 := by
                push_cast at hc1
                omega
              have hck2 : c ≤ k + 1 := by
                by_contra hgt
                push_cast at hck1
                omega
              omega
        have hmain := ih k (c + 1) ⟨some t, false⟩ hrest hinv2
        show BCInv (k + countTicks (BEvent.signal t :: rest))
          (c + (1 + (runBroadcaster ⟨some t, false⟩ rest).2))
          (runBroadcaster ⟨some t, false⟩ rest).1
        have hc : c + (1 + (runBroadcaster ⟨some t, false⟩ rest).2) =
            (c + 1) + (runBroadcaster ⟨some t, false⟩ rest).2 := by omega
        rw [hc]
        simpa [countTicks] using hmain
      · have hb : bstep s (BEvent.signal t) = (⟨s.lastBroadcast, true⟩, false) := by
          simp [bstep, hs]
        rw [runBroadcaster_cons, hb]
        have hinv2 : BCInv k c ⟨s.lastBroadcast, true⟩ := hinv
        have hmain := ih k c ⟨s.lastBroadcast, true⟩ hrest hinv2
        show BCInv (k + countTicks (BEvent.signal t :: rest))
          (c + (0 + (runBroadcaster ⟨s.lastBroadcast, true⟩ rest).2))
          (runBroadcaster ⟨s.lastBroadcast, true⟩ rest).1
        have hc : c + (0 + (runBroadcaster ⟨s.lastBroadcast, true⟩ rest).2) =
            c + (runBroadcaster ⟨s.lastBroadcast, true⟩ rest).2 := by omega
        rw [hc]
        simpa [countTicks] using hmain
    | tick t =>
      obtain ⟨hteq, hrest⟩ := hval
      by_cases hp : s.pending = true
      · have hb : bstep s (BEvent.tick t) = (⟨some t, false⟩, true) := by
          simp [bstep, hp]
        rw [runBroadcaster_cons, hb]
        have hck : c ≤ k + 2 := by
          rcases hsl : s.lastBroadcast with _ | b0
          · simp [hinv.1 hsl]
          · exact (hinv.2 b0 hsl).2
        have hinv2 : BCInv (k + 1) (c + 1) ⟨some t, false⟩ := by
          constructor
          · intro h
            cases h
          · intro b hb2
            have hbt : t = b := by
              simpa using hb2
            subst hbt
            subst hteq
            refine ⟨?_, by omega⟩
            simp only [second]
            push_cast
            omega
        have hmain := ih (k + 1) (c + 1) ⟨some t, false⟩ hrest hinv2
        show BCInv (k + countTicks (BEvent.tick t :: rest))
          (c + (1 + (runBroadcaster ⟨some t, false⟩ rest).2))
          (runBroadcaster ⟨some t, false⟩ rest).1
        have hc : c + (1 + (runBroadcaster ⟨some t, false⟩ rest).2) =
            (c + 1) + (runBroadcaster ⟨some t, false⟩ rest).2 := by omega
        have hk : k + countTicks (BEvent.tick t :: rest) =
            (k + 1) + countTicks rest := by
          simp only [countTicks]
          omega
        rw [hc, hk]
        exact hmain
      · have hb : bstep s (BEvent.tick t) = (s, false) := by
          simp [bstep, hp]
        rw [runBroadcaster_cons, hb]
        have hinv2 : BCInv (k + 1) c s := by
          constructor
          · exact hinv.1
          · intro b hb2
            obtain ⟨h1, h2⟩ := hinv.2 b hb2
            refine ⟨h1, by omega⟩
        have hmain := ih (k + 1) c s hrest hinv2
        show BCInv (k + countTicks (BEvent.tick t :: rest))
          (c + (0 + (runBroadcaster s rest).2))
          (runBroadcaster s rest).1
        have hc : c + (0 + (runBroadcaster s rest).2) =
            c + (runBroadcaster s rest).2 := by omega
        have hk : k + countTicks (BEvent.tick t :: rest) =
            (k + 1) + countTicks rest := by
          simp only [countTicks]
          omega
        rw [hc, hk]
        exact hmain

/-- C5: the broadcast worker coalesces mutation signals: a signal arriving
less than one second after the last broadcast publishes nothing and only
marks the update pending, and over any well-formed event sequence the
number of published snapshot messages is bounded by the number of
elapsed ticker seconds plus two — at most one message per second on
average, however dense the mutation signals are. -/
theorem broadcaster_rate_limit (evs : List BEvent) (hvalid : validTrace 0 evs) :
    (runBroadcaster initialBC evs).2 ≤ countTicks evs + 2 ∧
    ∀ (b t : Int) (p : Bool), t - b < second →
      bstep ⟨some b, p⟩ (BEvent.signal t) = (⟨some b, true⟩, false) := by
  constructor
  · have h := runBroadcaster_inv evs 0 0 initialBC hvalid (bcinv_none 0)
    rcases hsl : (runBroadcaster initialBC evs).1.lastBroadcast with _ | b
    · have h0 := h.1 hsl
      omega
    · have h2 := (h.2 b hsl).2
      omega
  · intro b t p hlt
    have hno : sinceOneSecond (some b) t = false := by
      simp only [sinceOneSecond, decide_eq_false_iff_not]
      simp only [second] at hlt ⊢
      omega
    simp [bstep, hno]

/-- A sample broadcaster trace: three ticker seconds carrying six
mutation signals, several of them closer together than one second. -/
def sampleTrace : List BEvent :=
  [BEvent.signal 500000000, BEvent.signal 600000000, BEvent.tick 1000000000,
   BEvent.signal 1700000000, BEvent.tick 2000000000, BEvent.signal 2500000000,
   BEvent.signal 2600000000, BEvent.tick 3000000000]

/-- Witness for C5: the sample trace is well formed and its publication
count respects the one-per-second-plus-slack bound. -/
theorem broadcaster_rate_limit_witness :
    validTrace 0 sampleTrace ∧
    (runBroadcaster initialBC sampleTrace).2 ≤ countTicks sampleTrace + 2 :=
  ⟨by decide, (broadcaster_rate_limit sampleTrace (by decide)).1⟩

end Proxy
